import Mathlib

/-!
Verification development for the turn-based elimination game server
(`src/server/index.js`, second revision: the `GameStateManager` class, plus
the game-action socket handler that drives it).  The JavaScript engine is
shallowly embedded below: every mutating method of `GameStateManager`
becomes a pure Lean function on an explicit `GameState` value.  JavaScript
objects used as expiry tables become association lists, machine numbers
become `Nat`/`Int` (bullets can be driven below zero by the code, so they
are `Int`), and code paths on which the JavaScript engine would throw a
`TypeError` (dereferencing `undefined`) are modelled as `Option.none`;
comments at each such point record what the thrown path would have mutated
(never a cell, a bullet count or an elimination flag).
-/

namespace Idksan

/-- The three power-up kinds of `POWER_UPS` in the source. -/
inductive PUType where
  | freeze
  | shield
  | turnSkipper
deriving DecidableEq, Repr

/-- `Object.values(POWER_UPS)` has order freeze, shield, turnSkipper; a
random index below 3 selects one.  This is `generateRandomPowerUp` with the
random index made an explicit oracle argument. -/
def puTypeOf : Fin 3 → PUType
  | 0 => .freeze
  | 1 => .shield
  | 2 => .turnSkipper

/-- `MAX_BULLETS` from the source. -/
def MAX_BULLETS : Int := 5

/-- `MAX_STAGE` from the source. -/
def MAX_STAGE : Nat := 6

/-- `POWER_UP_DURATION` from the source (turns). -/
def POWER_UP_DURATION : Nat := 2

/-- `getPowerUpTriggerNumber` from the source. -/
def getPowerUpTriggerNumber (playerCount : Nat) : Nat :=
  if playerCount ≤ 2 then 3
  else if playerCount = 3 then 4
  else if playerCount = 4 then 5
  else 6

/-- A power-up in a player inventory. -/
structure PowerUp where
  id : String
  type : PUType
  createdAt : Nat
deriving DecidableEq, Repr

/-- One upgrade slot of a player. -/
structure Cell where
  id : String
  stage : Nat
  isActive : Bool
  bullets : Int
  isShielded : Bool
  isFrozen : Bool
deriving DecidableEq, Repr

/-- A player of an initialized game. -/
structure Player where
  id : String
  username : String
  eliminated : Bool
  firstMove : Bool
  powerUps : List PowerUp
  cells : List Cell
deriving DecidableEq, Repr

/-- One entry of `gameState.gameLog`.  The `firstMove` message text of the
source (a template around the username) is abbreviated to the username. -/
inductive LogEntry where
  | powerUp (player : String) (pu : PUType)
  | firstMove (player : String)
  | activate (player : String) (cell : Nat)
  | maxLevel (player : String) (cell : Nat)
  | reload (player : String) (cell : Nat)
  | usePowerUp (player target : String) (pu : PUType)
  | blocked (shooter target message : String)
  | shoot (shooter target : String) (cell : Nat)
  | eliminate (shooter target : String)
deriving DecidableEq, Repr

/-- The three expiry tables of `gameState.powerUpState`; JavaScript objects
keyed by cell id / player id with an `expiresAt` turn number become
association lists. -/
structure PowerUpState where
  frozen : List (String × Nat)
  shielded : List (String × Nat)
  skippedTurns : List (String × Nat)
deriving DecidableEq, Repr

/-- `gameState` of the source. -/
structure GameState where
  currentPlayer : Nat
  turnCount : Nat
  players : List Player
  lastRoll : Option Nat
  gameLog : List LogEntry
  canShoot : Bool
  rolledCell : Option Int
  powerUpState : PowerUpState
deriving DecidableEq, Repr

/-! ### Association-list helpers (JavaScript object semantics) -/

/-- Key lookup (`obj[k]`, `undefined` becomes `none`). -/
def assocLookup (m : List (String × Nat)) (k : String) : Option Nat :=
  (m.find? (fun e => e.1 == k)).map (fun e => e.2)

/-- Key insert/overwrite (`obj[k] = v`). -/
def assocInsert (m : List (String × Nat)) (k : String) (v : Nat) : List (String × Nat) :=
  if m.any (fun e => e.1 == k) then
    m.map (fun e => if e.1 == k then (k, v) else e)
  else m ++ [(k, v)]

/-! ### Small list helpers -/

/-- Apply `f` to the element at index `i`, leaving the list unchanged when
the index is out of range (mirrors in-place mutation of one array slot). -/
def modifyIdx (l : List α) (i : Nat) (f : α → α) : List α :=
  match l.get? i with
  | some a => l.set i (f a)
  | none => l

/-! ### Game-state construction -/

/-- Identity and name a player brings into `initializeGameState`. -/
structure PlayerSeed where
  id : String
  username : String
deriving DecidableEq, Repr

/-- A fresh cell of `initializeGameState`; the random id is supplied by the
oracle argument. -/
def freshCell (cid : String) : Cell :=
  { id := cid, stage := 0, isActive := false, bullets := 0,
    isShielded := false, isFrozen := false }

/-- `GameStateManager.initializeGameState`.  `cellId i j` stands in for the
random id generated for cell `j` of player `i`. -/
def initializeGameState (seeds : List PlayerSeed) (cellId : Nat → Nat → String) :
    GameState :=
  { currentPlayer := 0
    turnCount := 0
    players := seeds.mapIdx (fun i s =>
      { id := s.id, username := s.username, eliminated := false,
        firstMove := true, powerUps := [],
        cells := (List.range (min seeds.length 5)).map
          (fun j => freshCell (cellId i j)) })
    lastRoll := none
    gameLog := []
    canShoot := false
    rolledCell := none
    powerUpState := { frozen := [], shielded := [], skippedTurns := [] } }

/-! ### Power-up sweep (`GameStateManager.processPowerUpEffects`) -/

/-- Remove the shield flag from every cell of a player. -/
def unshieldPlayerCells (p : Player) : Player :=
  { p with cells := p.cells.map (fun c => { c with isShielded := false }) }

/-- Unshield the first player whose id matches (the source uses
`players.find`). -/
def unshieldById (players : List Player) (pid : String) : List Player :=
  match players.findIdx? (fun p => p.id == pid) with
  | some i => modifyIdx players i unshieldPlayerCells
  | none => players

/-- The shield part of the sweep: every entry with `expiresAt <= turnCount`
unshields the matching player and is dropped; the rest survive. -/
def processShieldEffects (gs : GameState) : GameState :=
  let expired := gs.powerUpState.shielded.filter (fun e => e.2 ≤ gs.turnCount)
  let kept := gs.powerUpState.shielded.filter (fun e => gs.turnCount < e.2)
  { gs with
    players := expired.foldl (fun ps e => unshieldById ps e.1) gs.players
    powerUpState := { gs.powerUpState with shielded := kept } }

/-- The frozen part of the sweep: expired entries unfreeze every cell with
the matching id across all players and are dropped. -/
def processFrozenEffects (gs : GameState) : GameState :=
  let expired := gs.powerUpState.frozen.filter (fun e => e.2 ≤ gs.turnCount)
  let kept := gs.powerUpState.frozen.filter (fun e => gs.turnCount < e.2)
  { gs with
    players := gs.players.map (fun p =>
      { p with cells := p.cells.map (fun c =>
          if expired.any (fun e => e.1 == c.id) then { c with isFrozen := false }
          else c) })
    powerUpState := { gs.powerUpState with frozen := kept } }

/-- The turn-skip part of the sweep: expired entries are dropped. -/
def processSkipEffects (gs : GameState) : GameState :=
  { gs with powerUpState := { gs.powerUpState with
      skippedTurns := gs.powerUpState.skippedTurns.filter
        (fun e => gs.turnCount < e.2) } }

/-- `GameStateManager.processPowerUpEffects`: shields, then frozen cells,
then turn skips, exactly as in the source. -/
def processPowerUpEffects (gs : GameState) : GameState :=
  processSkipEffects (processFrozenEffects (processShieldEffects gs))

/-! ### Turn sequencer (`GameStateManager.advanceToNextPlayer`) -/

/-- The `do ... while eliminated` search: the first index after `cur`
(circularly, moving at least one step) whose player is not eliminated.
`none` models the infinite loop the source would enter when every player
is eliminated (and the crash on an empty player list). -/
def nextNonEliminated (players : List Player) (cur : Nat) : Option Nat :=
  (List.range players.length).map (fun k => (cur + 1 + k) % players.length)
    |>.find? (fun i => ((players.get? i).map (fun p => !p.eliminated)).getD false)

/-- The state reached inside one `advanceToNextPlayer` unfolding after the
sweep ran, the turn counter was incremented and the rotation landed on
index `i`. -/
def advanceCore (gs : GameState) (i : Nat) : GameState :=
  { processPowerUpEffects gs with
    turnCount := (processPowerUpEffects gs).turnCount + 1
    currentPlayer := i }

/-- One fuelled unfolding of `advanceToNextPlayer`: sweep, increment the
turn counter, rotate to the next non-eliminated player, and recurse when
the landed-on player has a skip entry with `expiresAt > turnCount` (the
source recurses without deleting the entry). -/
def advanceFuel : Nat → GameState → Option GameState
  | 0, _ => none
  | fuel + 1, gs =>
    match nextNonEliminated (processPowerUpEffects gs).players
        (processPowerUpEffects gs).currentPlayer with
    | none => none
    | some i =>
      match assocLookup (advanceCore gs i).powerUpState.skippedTurns
          ((((advanceCore gs i).players.get? i).map Player.id).getD "") with
      | some ex =>
        if (advanceCore gs i).turnCount < ex then advanceFuel fuel (advanceCore gs i)
        else some (advanceCore gs i)
      | none => some (advanceCore gs i)

/-- Largest expiry recorded in the skip table; recursion depth of
`advanceToNextPlayer` is bounded by it because every level increments
`turnCount` and recursion requires `turnCount < expiresAt`. -/
def skipBound (gs : GameState) : Nat :=
  gs.powerUpState.skippedTurns.foldl (fun acc e => max acc e.2) 0

/-- `GameStateManager.advanceToNextPlayer` with always-sufficient fuel. -/
def advanceToNextPlayer (gs : GameState) : Option GameState :=
  advanceFuel (skipBound gs + 1) gs

/-! ### Action resolvers -/

/-- `GameStateManager.processCellUpdate` on one cell; returns the updated
cell together with the log entries it appends. -/
def processCellUpdate (cell : Cell) (username : String) (cellIndex : Nat) :
    Cell × List LogEntry :=
  if !cell.isActive then
    ({ cell with stage := 1, isActive := true, bullets := 0 },
      [.activate username (cellIndex + 1)])
  else if cell.stage < MAX_STAGE && !cell.isFrozen then
    if cell.stage + 1 = MAX_STAGE then
      ({ cell with stage := cell.stage + 1, bullets := MAX_BULLETS },
        [.maxLevel username (cellIndex + 1)])
    else ({ cell with stage := cell.stage + 1 }, [])
  else if cell.stage = MAX_STAGE && cell.bullets = 0 then
    ({ cell with bullets := MAX_BULLETS }, [.reload username (cellIndex + 1)])
  else (cell, [])

/-- The tail of `processRoll` from the `canShoot` check onward: inspect
`cells[value-1]`, either arm `canShoot` (no turn advance) or apply the cell
progression, clear `canShoot` and advance.  `none` models the `TypeError`
the source throws dereferencing `cells[value-1]` when the index is out of
range (the throw leaves cells, log and turn untouched). -/
def rollCellPhase (gs : GameState) (value : Nat) : Option GameState :=
  match gs.players.get? gs.currentPlayer with
  | none => none
  | some cp =>
    if value = 0 then none
    else
      match cp.cells.get? (value - 1) with
      | none => none
      | some cell =>
        if cell.isActive && cell.stage = MAX_STAGE && 0 < cell.bullets then
          some { gs with canShoot := true }
        else
          let r := processCellUpdate cell cp.username (value - 1)
          advanceToNextPlayer { gs with
            players := modifyIdx gs.players gs.currentPlayer
              (fun p => { p with cells := p.cells.set (value - 1) r.1 })
            gameLog := gs.gameLog ++ r.2
            canShoot := false }

/-- `GameStateManager.processRoll`.  `roomPlayerCount` is
`room.players.length`; `puId`, `puIdx` and `now` are the oracle inputs of
`generateRandomPowerUp` (random id, random type index, `Date.now()`).
`none` models the `TypeError` on an invalid `currentPlayer` (thrown after
`lastRoll`, and possibly `rolledCell`, were written — no cell, log or turn
effect). -/
def processRoll (gs0 : GameState) (value : Nat) (roomPlayerCount : Nat)
    (puId : String) (puIdx : Fin 3) (now : Nat) : Option GameState :=
  match gs0.players.get? gs0.currentPlayer with
  | none => none
  | some cp =>
    let gs := { gs0 with lastRoll := some value }
    if value = getPowerUpTriggerNumber roomPlayerCount then
      some { gs with
        gameLog := gs.gameLog ++ [.powerUp cp.username (puTypeOf puIdx)]
        players := modifyIdx gs.players gs.currentPlayer
          (fun p => { p with powerUps :=
            p.powerUps ++ [{ id := puId, type := puTypeOf puIdx, createdAt := now }] }) }
    else
      let gs := { gs with rolledCell := some ((value : Int) - 1) }
      if cp.firstMove then
        if value ≠ 1 then
          advanceToNextPlayer { gs with
            gameLog := gs.gameLog ++ [.firstMove cp.username]
            canShoot := false }
        else
          rollCellPhase { gs with
            players := modifyIdx gs.players gs.currentPlayer
              (fun p => { p with firstMove := false }) } value
      else rollCellPhase gs value

/-- The per-type effect dispatch of `GameStateManager.processPowerUp`,
applied after the power-up was removed from the inventory.  `target` is
`players[targetPlayer]` (already known to exist), `ti` its index. -/
def applyPUEffect (gs : GameState) (pt : PUType) (target : Player) (ti : Nat)
    (targetCell : Option String) : GameState :=
  match pt with
  | .freeze =>
    match targetCell with
    | none => gs
    | some cid =>
      -- JavaScript truthiness: the empty string is falsy in `if (targetCell)`.
      if cid = "" then gs
      else
        match target.cells.findIdx? (fun c => c.id == cid) with
        | none => gs
        | some ci =>
          match target.cells.get? ci with
          | none => gs
          | some cell =>
            if cell.isActive && !cell.isShielded then
              { gs with
                players := modifyIdx gs.players ti (fun p =>
                  { p with cells :=
                      modifyIdx p.cells ci (fun c => { c with isFrozen := true }) })
                powerUpState := { gs.powerUpState with
                  frozen := assocInsert gs.powerUpState.frozen cid
                    (gs.turnCount + POWER_UP_DURATION) } }
            else gs
  | .shield =>
    { gs with
      players := modifyIdx gs.players ti (fun p =>
        { p with cells := p.cells.map (fun c =>
            if c.isActive then { c with isShielded := true } else c) })
      powerUpState := { gs.powerUpState with
        shielded := assocInsert gs.powerUpState.shielded target.id
          (gs.turnCount + POWER_UP_DURATION) } }
  | .turnSkipper =>
    if !target.eliminated then
      { gs with powerUpState := { gs.powerUpState with
          skippedTurns := assocInsert gs.powerUpState.skippedTurns target.id
            (gs.turnCount + 1) } }
    else gs

/-- Append one game-log entry. -/
def appendLog (gs : GameState) (e : LogEntry) : GameState :=
  { gs with gameLog := gs.gameLog ++ [e] }

/-- `currentPlayer.powerUps.splice(powerUpIndex, 1)`. -/
def splicePU (gs : GameState) (idx : Nat) : GameState :=
  { gs with
    players := modifyIdx gs.players gs.currentPlayer
      (fun p => { p with powerUps := p.powerUps.eraseIdx idx }) }

/-- `GameStateManager.processPowerUp`.  An unknown power-up id is an early
return with the state unchanged.  `none` models the `TypeError` on an
invalid `currentPlayer` (no prior mutation) or an invalid `targetPlayer`
(thrown inside the handler or at the log push, after the power-up was
already spliced out of the inventory — no cell, turn or table effect). -/
def processPowerUp (gs0 : GameState) (powerUpId : String) (targetPlayer : Nat)
    (targetCell : Option String) : Option GameState :=
  match gs0.players.get? gs0.currentPlayer with
  | none => none
  | some cp =>
    match cp.powerUps.findIdx? (fun p => p.id == powerUpId) with
    | none => some gs0
    | some idx =>
      match cp.powerUps.get? idx with
      | none => some gs0
      | some pu =>
        match (splicePU gs0 idx).players.get? targetPlayer with
        | none => none
        | some target =>
          some (appendLog
            (applyPUEffect (splicePU gs0 idx) pu.type target targetPlayer targetCell)
            (.usePowerUp cp.username target.username pu.type))

/-- `shooterCell.bullets--` from `processShoot`: no lower bound. -/
def decBullet (c : Cell) : Cell :=
  { c with bullets := c.bullets - 1 }

/-- The shooter bullet decrement of `processShoot`, performed first. -/
def shooterDec (gs : GameState) (rcN : Nat) : GameState :=
  { gs with
    players := modifyIdx gs.players gs.currentPlayer
      (fun p => { p with cells := modifyIdx p.cells rcN decBullet }) }

/-- Clear the `canShoot` flag. -/
def clearCanShoot (gs : GameState) : GameState := { gs with canShoot := false }

/-- Destroyed-cell reset of `processShoot` (keeps only the id). -/
def destroyCell (c : Cell) : Cell :=
  { c with
    isActive := false
    stage := 0
    bullets := 0
    isShielded := false
    isFrozen := false }

/-- Destruction of the target cell (cell `ci` of player `tp`). -/
def destroyAt (gs : GameState) (tp ci : Nat) : GameState :=
  { gs with
    players := modifyIdx gs.players tp
      (fun p => { p with cells := modifyIdx p.cells ci destroyCell }) }

/-- The elimination re-check of `processShoot`: if every cell of the target
player is now inactive, set `eliminated` and append an `eliminate` log
entry (the entry carries the usernames captured before the hit). -/
def elimCheck (gs : GameState) (shooterName targetName : String) (tp : Nat) :
    GameState :=
  match gs.players.get? tp with
  | some t2 =>
    if t2.cells.all (fun c => !c.isActive) then
      { gs with
        players := modifyIdx gs.players tp (fun p => { p with eliminated := true })
        gameLog := gs.gameLog ++ [.eliminate shooterName targetName] }
    else gs
  | none => gs

/-- `GameStateManager.processShoot`.  The two guard branches (`no such
cell / not active` and `shielded`) log a `blocked` entry and return with no
other change — no bullet is consumed and the turn does not advance.  The
main branch decrements the shooter cell (with no lower bound), destroys the
target cell, logs, re-checks elimination, clears `canShoot` and advances.
`none` models the `TypeError` on an invalid `currentPlayer`/`targetPlayer`
(thrown before any mutation) or an invalid `rolledCell` in the main branch
(thrown at `shooterCell.bullets--`, before any mutation). -/
def processShoot (gs0 : GameState) (targetPlayer : Nat) (targetCell : String) :
    Option GameState :=
  match gs0.players.get? gs0.currentPlayer, gs0.players.get? targetPlayer with
  | some cp, some target =>
    match target.cells.findIdx? (fun c => c.id == targetCell) with
    | none =>
      some { gs0 with gameLog := gs0.gameLog ++
        [.blocked cp.username target.username "Cell is not active"] }
    | some ci =>
      match target.cells.get? ci with
      | none =>
        some { gs0 with gameLog := gs0.gameLog ++
          [.blocked cp.username target.username "Cell is not active"] }
      | some cell =>
        if !cell.isActive then
          some { gs0 with gameLog := gs0.gameLog ++
            [.blocked cp.username target.username "Cell is not active"] }
        else if cell.isShielded then
          some { gs0 with gameLog := gs0.gameLog ++
            [.blocked cp.username target.username "Cell is shielded"] }
        else
          match gs0.rolledCell with
          | none => none
          | some rc =>
            if rc < 0 then none
            else if cp.cells.length ≤ rc.toNat then none
            else
              advanceToNextPlayer (clearCanShoot
                (elimCheck
                  (appendLog
                    (destroyAt (shooterDec gs0 rc.toNat) targetPlayer ci)
                    (.shoot cp.username target.username (ci + 1)))
                  cp.username target.username targetPlayer))
  | _, _ => none

/-- The `storePowerUp` arm of the `gameAction` socket handler: push a fresh
power-up (oracle id / type / timestamp) onto the current player and advance
the turn. -/
def storePowerUp (gs : GameState) (pt : PUType) (puId : String) (now : Nat) :
    Option GameState :=
  match gs.players.get? gs.currentPlayer with
  | none => none
  | some _ =>
    advanceToNextPlayer { gs with
      players := modifyIdx gs.players gs.currentPlayer
        (fun p => { p with powerUps :=
          p.powerUps ++ [{ id := puId, type := pt, createdAt := now }] }) }

/-! ### The action vocabulary of the `gameAction` handler -/

/-- The four actions the second-revision socket handler dispatches, with the
randomness of `generateRandomPowerUp` made explicit oracle data. -/
inductive Action where
  | roll (value : Nat) (puId : String) (puIdx : Fin 3) (now : Nat)
  | usePowerUp (powerUpId : String) (targetPlayer : Nat) (targetCell : Option String)
  | storePowerUp (pt : PUType) (puId : String) (now : Nat)
  | shoot (targetPlayer : Nat) (targetCell : String)

/-- One accepted `gameAction`.  `roll` reads the room player count; the
game-state player list is the room membership at game start, which this
model takes as stable. -/
def step (gs : GameState) : Action → Option GameState
  | .roll value puId puIdx now =>
    processRoll gs value gs.players.length puId puIdx now
  | .usePowerUp powerUpId targetPlayer targetCell =>
    processPowerUp gs powerUpId targetPlayer targetCell
  | .storePowerUp pt puId now => storePowerUp gs pt puId now
  | .shoot targetPlayer targetCell => processShoot gs targetPlayer targetCell

/-- Multi-step execution of accepted actions. -/
inductive Steps : GameState → GameState → Prop where
  | refl (gs : GameState) : Steps gs gs
  | tail {gs1 gs2 gs3 : GameState} (a : Action) :
      Steps gs1 gs2 → step gs2 a = some gs3 → Steps gs1 gs3

/-- A state reachable from some initialized game by accepted actions. -/
def Reachable (gs : GameState) : Prop :=
  ∃ seeds cellId, Steps (initializeGameState seeds cellId) gs

/-! ### List lemmas for the invariant proofs -/

theorem mem_set_cases {α : Type} {l : List α} {i : Nat} {a b : α}
    (h : b ∈ l.set i a) : b ∈ l ∨ b = a := by
  induction l generalizing i with
  | nil => simp at h
  | cons x xs ih =>
    cases i with
    | zero =>
      rw [List.set_cons_zero, List.mem_cons] at h
      rcases h with h | h
      · exact Or.inr h
      · exact Or.inl (List.mem_cons_of_mem _ h)
    | succ n =>
      rw [List.set_cons_succ, List.mem_cons] at h
      rcases h with h | h
      · exact Or.inl (h ▸ List.mem_cons_self _ _)
      · rcases ih h with h' | h'
        · exact Or.inl (List.mem_cons_of_mem _ h')
        · exact Or.inr h'

theorem mem_modifyIdx_cases {α : Type} {l : List α} {i : Nat} {f : α → α} {b : α}
    (h : b ∈ modifyIdx l i f) : b ∈ l ∨ ∃ a, a ∈ l ∧ b = f a := by
  unfold modifyIdx at h
  cases hg : l.get? i with
  | none => rw [hg] at h; exact Or.inl h
  | some a =>
    rw [hg] at h
    rcases mem_set_cases h with h' | h'
    · exact Or.inl h'
    · exact Or.inr ⟨a, List.get?_mem hg, h'⟩

theorem forall_mem_set {α : Type} {P : α → Prop} {l : List α} {i : Nat} {a : α}
    (hl : ∀ x ∈ l, P x) (ha : P a) : ∀ x ∈ l.set i a, P x := by
  intro x hx
  rcases mem_set_cases hx with h | h
  · exact hl x h
  · exact h ▸ ha

theorem forall_mem_modifyIdx {α : Type} {P : α → Prop} {l : List α} {i : Nat}
    {f : α → α} (hl : ∀ x ∈ l, P x) (hf : ∀ x ∈ l, P x → P (f x)) :
    ∀ x ∈ modifyIdx l i f, P x := by
  intro x hx
  rcases mem_modifyIdx_cases hx with h | ⟨a, ha, rfl⟩
  · exact hl x h
  · exact hf a ha (hl a ha)

theorem get?_modifyIdx {α : Type} (l : List α) (i j : Nat) (f : α → α) :
    (modifyIdx l i f).get? j = if i = j then (l.get? j).map f else l.get? j := by
  unfold modifyIdx
  cases hg : l.get? i with
  | none =>
    by_cases hij : i = j
    · subst hij; rw [if_pos rfl, hg]; rfl
    · simp [hij]
  | some a =>
    by_cases hij : i = j
    · subst hij
      have hlen : i < l.length := List.get?_eq_some.mp hg |>.choose
      rw [List.get?_set_eq_of_lt _ hlen, hg]
      simp
    · rw [List.get?_set_ne _ _ hij]
      simp [hij]

theorem length_modifyIdx {α : Type} (l : List α) (i : Nat) (f : α → α) :
    (modifyIdx l i f).length = l.length := by
  unfold modifyIdx
  cases hg : l.get? i with
  | none => rfl
  | some a => exact List.length_set l i (f a)

theorem forall_mem_modifyIdx_at {α : Type} {P : α → Prop} {l : List α} {i : Nat}
    {f : α → α} (hl : ∀ x ∈ l, P x)
    (hf : ∀ x, l.get? i = some x → P x → P (f x)) :
    ∀ x ∈ modifyIdx l i f, P x := by
  unfold modifyIdx
  cases hg : l.get? i with
  | none => exact hl
  | some a => exact forall_mem_set hl (hf a hg (hl a (List.get?_mem hg)))

/-! ### The state invariants of the spec (armed cells, elimination) -/

/-- Spec data-model invariant on a cell: a positive bullet count only on an
active, max-stage cell. -/
def cellOK (c : Cell) : Prop := 0 < c.bullets → c.isActive = true ∧ c.stage = 6

instance (c : Cell) : Decidable (cellOK c) := by unfold cellOK; infer_instance

/-- Per-player invariant: all cells satisfy `cellOK`, and an eliminated
player has no active cell. -/
def PlayerInv (p : Player) : Prop :=
  (∀ c ∈ p.cells, cellOK c) ∧ (p.eliminated = true → ∀ c ∈ p.cells, c.isActive = false)

instance (p : Player) : Decidable (PlayerInv p) := by unfold PlayerInv; infer_instance

/-- All players satisfy `PlayerInv`. -/
def PlayersInv (gs : GameState) : Prop := ∀ p ∈ gs.players, PlayerInv p

instance (gs : GameState) : Decidable (PlayersInv gs) := by
  unfold PlayersInv; infer_instance

/-- The current player, when the index is in range, is not eliminated. -/
def CurOK (gs : GameState) : Prop :=
  (gs.players.get? gs.currentPlayer).map Player.eliminated ≠ some true

instance (gs : GameState) : Decidable (CurOK gs) := by unfold CurOK; infer_instance

/-- The inductive invariant carried through every accepted action. -/
def StateInv (gs : GameState) : Prop := PlayersInv gs ∧ CurOK gs

instance (gs : GameState) : Decidable (StateInv gs) := by
  unfold StateInv; infer_instance

/-- Strong form of `CurOK` established by the turn sequencer. -/
def CurrentOK (gs : GameState) : Prop :=
  ∃ p, gs.players.get? gs.currentPlayer = some p ∧ p.eliminated = false

/-- No unconsumed, unexpired skip entry for the given player id. -/
def NoActiveSkip (gs : GameState) (pid : String) : Prop :=
  ∀ ex, assocLookup gs.powerUpState.skippedTurns pid = some ex → ex ≤ gs.turnCount

theorem curOK_of_currentOK {gs : GameState} (h : CurrentOK gs) : CurOK gs := by
  obtain ⟨p, hp, he⟩ := h
  unfold CurOK
  rw [hp]
  simp [he]

/-! ### Cell-level preservation -/

theorem cellOK_same_fields {c c' : Cell} (h : cellOK c)
    (hb : c'.bullets = c.bullets) (ha : c'.isActive = c.isActive)
    (hs : c'.stage = c.stage) : cellOK c' := by
  unfold cellOK at h ⊢
  rw [hb, ha, hs]
  exact h

theorem cellOK_decBullet {c : Cell} (h : cellOK c) : cellOK (decBullet c) := by
  intro hb
  exact h (lt_of_lt_of_le hb (by simp [decBullet]))

theorem cellOK_destroyCell (c : Cell) : cellOK (destroyCell c) := by
  intro hb
  simp [destroyCell] at hb

/-! ### Player-level preservation -/

theorem playerInv_map_cells {f : Cell → Cell}
    (hOK : ∀ c, cellOK c → cellOK (f c))
    (hAct : ∀ c, c.isActive = false → (f c).isActive = false)
    {p : Player} (h : PlayerInv p) : PlayerInv { p with cells := p.cells.map f } := by
  constructor
  · intro c hc
    rcases List.mem_map.mp hc with ⟨a, ha, rfl⟩
    exact hOK a (h.1 a ha)
  · intro he c hc
    rcases List.mem_map.mp hc with ⟨a, ha, rfl⟩
    exact hAct a (h.2 he a ha)

theorem playerInv_modifyIdx_cells {f : Cell → Cell} {i : Nat}
    (hOK : ∀ c, cellOK c → cellOK (f c))
    (hAct : ∀ c, c.isActive = false → (f c).isActive = false)
    {p : Player} (h : PlayerInv p) :
    PlayerInv { p with cells := modifyIdx p.cells i f } := by
  constructor
  · intro c hc
    rcases mem_modifyIdx_cases hc with hc' | ⟨a, ha, rfl⟩
    · exact h.1 c hc'
    · exact hOK a (h.1 a ha)
  · intro he c hc
    rcases mem_modifyIdx_cases hc with hc' | ⟨a, ha, rfl⟩
    · exact h.2 he c hc'
    · exact hAct a (h.2 he a ha)

theorem playerInv_unshield {p : Player} (h : PlayerInv p) :
    PlayerInv (unshieldPlayerCells p) :=
  playerInv_map_cells (f := fun c => { c with isShielded := false })
    (fun c hc => cellOK_same_fields hc rfl rfl rfl)
    (fun _ ha => ha) h

theorem playerInv_powerUps {p : Player} (pus : List PowerUp) (h : PlayerInv p) :
    PlayerInv { p with powerUps := pus } := h

theorem playerInv_firstMove {p : Player} (b : Bool) (h : PlayerInv p) :
    PlayerInv { p with firstMove := b } := h

/-! ### Sweep preservation -/

theorem playersInv_unshieldById {ps : List Player} {pid : String}
    (h : ∀ p ∈ ps, PlayerInv p) : ∀ p ∈ unshieldById ps pid, PlayerInv p := by
  unfold unshieldById
  cases ps.findIdx? (fun p => p.id == pid) with
  | none => exact h
  | some i =>
    exact forall_mem_modifyIdx h (fun p _ hp => playerInv_unshield hp)

theorem playersInv_foldl_unshield (entries : List (String × Nat)) :
    ∀ ps : List Player, (∀ p ∈ ps, PlayerInv p) →
      ∀ p ∈ entries.foldl (fun ps e => unshieldById ps e.1) ps, PlayerInv p := by
  induction entries with
  | nil => intro ps h; exact h
  | cons e rest ih =>
    intro ps h
    exact ih (unshieldById ps e.1) (playersInv_unshieldById h)

theorem playerInv_map_cells_if (pred : Cell → Bool) (g : Cell → Cell)
    (hOK : ∀ c, cellOK c → cellOK (g c))
    (hAct : ∀ c, c.isActive = false → (g c).isActive = false)
    {p : Player} (h : PlayerInv p) :
    PlayerInv { p with cells := p.cells.map (fun c => if pred c then g c else c) } :=
  playerInv_map_cells
    (fun c hc => by
      by_cases hpc : pred c
      · rw [if_pos hpc]; exact hOK c hc
      · rw [if_neg hpc]; exact hc)
    (fun c ha => by
      by_cases hpc : pred c
      · rw [if_pos hpc]; exact hAct c ha
      · rw [if_neg hpc]; exact ha) h

theorem playerInv_unfreeze_if (pred : Cell → Bool) {p : Player} (h : PlayerInv p) :
    PlayerInv
      { p with
        cells := p.cells.map (fun c => if pred c then { c with isFrozen := false } else c) } :=
  playerInv_map_cells_if pred (fun c => { c with isFrozen := false })
    (fun c hc => cellOK_same_fields hc rfl rfl rfl)
    (fun _ ha => ha) h

theorem playersInv_processPowerUpEffects {gs : GameState} (h : PlayersInv gs) :
    PlayersInv (processPowerUpEffects gs) := by
  unfold processPowerUpEffects processSkipEffects processFrozenEffects
    processShieldEffects
  intro p hp
  simp only [List.mem_map] at hp
  obtain ⟨q, hq, rfl⟩ := hp
  have hq' : PlayerInv q :=
    playersInv_foldl_unshield _ gs.players h q hq
  exact playerInv_unfreeze_if _ hq'

/-! ### Turn sequencer postconditions -/

theorem nextNonEliminated_spec {ps : List Player} {cur i : Nat}
    (h : nextNonEliminated ps cur = some i) :
    ∃ p, ps.get? i = some p ∧ p.eliminated = false := by
  unfold nextNonEliminated at h
  have hpred := List.find?_some h
  cases hg : ps.get? i with
  | none => rw [hg] at hpred; simp at hpred
  | some p =>
    rw [hg] at hpred
    simp at hpred
    exact ⟨p, rfl, hpred⟩

theorem advanceCore_players (gs : GameState) (i : Nat) :
    (advanceCore gs i).players = (processPowerUpEffects gs).players := rfl

theorem advanceCore_currentPlayer (gs : GameState) (i : Nat) :
    (advanceCore gs i).currentPlayer = i := rfl

theorem advanceFuel_post {fuel : Nat} {gs gs' : GameState}
    (h : advanceFuel fuel gs = some gs') :
    ∃ p, gs'.players.get? gs'.currentPlayer = some p ∧ p.eliminated = false ∧
      NoActiveSkip gs' p.id := by
  induction fuel generalizing gs with
  | zero => simp [advanceFuel] at h
  | succ n ih =>
    unfold advanceFuel at h
    split at h
    next hnext => simp at h
    next i hnext =>
      obtain ⟨p, hp, he⟩ := nextNonEliminated_spec hnext
      split at h
      next ex hsk =>
        split at h
        next hlt => exact ih h
        next hlt =>
          injection h with h'
          subst h'
          refine ⟨p, ?_, he, ?_⟩
          · rw [advanceCore_currentPlayer, advanceCore_players]
            exact hp
          · intro ex' hex'
            rw [advanceCore_players, hp] at hsk
            simp only [Option.map_some', Option.getD_some] at hsk
            rw [hsk] at hex'
            injection hex' with hex''
            subst hex''
            exact Nat.le_of_not_lt hlt
      next hsk =>
        injection h with h'
        subst h'
        refine ⟨p, ?_, he, ?_⟩
        · rw [advanceCore_currentPlayer, advanceCore_players]
          exact hp
        · intro ex' hex'
          rw [advanceCore_players, hp] at hsk
          simp only [Option.map_some', Option.getD_some] at hsk
          rw [hsk] at hex'
          exact absurd hex' (by simp)

theorem advanceFuel_playersInv {fuel : Nat} {gs gs' : GameState}
    (h : advanceFuel fuel gs = some gs') (hinv : PlayersInv gs) :
    PlayersInv gs' := by
  induction fuel generalizing gs with
  | zero => simp [advanceFuel] at h
  | succ n ih =>
    unfold advanceFuel at h
    have hsw : PlayersInv (processPowerUpEffects gs) :=
      playersInv_processPowerUpEffects hinv
    split at h
    next hnext => simp at h
    next i hnext =>
      have hsw' : PlayersInv (advanceCore gs i) := by
        intro p hp
        rw [advanceCore_players] at hp
        exact hsw p hp
      split at h
      next ex hsk =>
        split at h
        next hlt => exact ih h hsw'
        next hlt =>
          injection h with h'
          subst h'
          exact hsw'
      next hsk =>
        injection h with h'
        subst h'
        exact hsw'

theorem advanceToNextPlayer_post {gs gs' : GameState}
    (h : advanceToNextPlayer gs = some gs') :
    ∃ p, gs'.players.get? gs'.currentPlayer = some p ∧ p.eliminated = false ∧
      NoActiveSkip gs' p.id :=
  advanceFuel_post h

theorem advanceToNextPlayer_playersInv {gs gs' : GameState}
    (h : advanceToNextPlayer gs = some gs') (hinv : PlayersInv gs) :
    PlayersInv gs' :=
  advanceFuel_playersInv h hinv

theorem advanceToNextPlayer_stateInv {gs gs' : GameState}
    (h : advanceToNextPlayer gs = some gs') (hinv : PlayersInv gs) :
    StateInv gs' := by
  refine ⟨advanceToNextPlayer_playersInv h hinv, curOK_of_currentOK ?_⟩
  obtain ⟨p, hp, he, _⟩ := advanceToNextPlayer_post h
  exact ⟨p, hp, he⟩

/-! ### Action-level invariant preservation -/

theorem curOK_modifyIdx {players : List Player} {cur : Nat} (f : Player → Player)
    (i : Nat) (hf : ∀ p, (f p).eliminated = p.eliminated)
    (h : (players.get? cur).map Player.eliminated ≠ some true) :
    ((modifyIdx players i f).get? cur).map Player.eliminated ≠ some true := by
  rw [get?_modifyIdx]
  by_cases hij : i = cur
  · rw [if_pos hij]
    cases hg : players.get? cur with
    | none => simp
    | some p =>
      rw [hg] at h
      simp only [Option.map_some', Option.map_map, Function.comp, hf p]
      simpa using h
  · rw [if_neg hij]
    exact h

theorem cellOK_processCellUpdate {cell : Cell} (h : cellOK cell) (u : String)
    (i : Nat) : cellOK (processCellUpdate cell u i).1 := by
  unfold processCellUpdate
  split
  next hact =>
    intro hb
    simp at hb
  next hact =>
    split
    next hupg =>
      split
      next hmax =>
        intro _
        refine ⟨?_, ?_⟩
        · simpa using hact
        · simpa [MAX_STAGE] using hmax
      next hmax =>
        intro hb
        have h6 := (h hb).2
        simp only [Bool.and_eq_true, decide_eq_true_eq, Bool.not_eq_true'] at hupg
        rw [MAX_STAGE] at hupg
        omega
    next hupg =>
      split
      next hrel =>
        intro _
        simp only [Bool.and_eq_true, decide_eq_true_eq] at hrel
        refine ⟨by simpa using hact, ?_⟩
        simpa [MAX_STAGE] using hrel.1
      next hrel => exact h

theorem rollCellPhase_stateInv {gs gs' : GameState} {value : Nat}
    (h : rollCellPhase gs value = some gs') (hinv : StateInv gs) : StateInv gs' := by
  unfold rollCellPhase at h
  split at h
  next => simp at h
  next cp hcp =>
    split at h
    next => simp at h
    next hv0 =>
      split at h
      next => simp at h
      next cell hcell =>
        split at h
        next harmed =>
          injection h with h'
          subst h'
          exact hinv
        next harmed =>
          refine advanceToNextPlayer_stateInv h ?_
          intro p hp
          dsimp only at hp
          refine forall_mem_modifyIdx_at hinv.1 ?_ p hp
          intro x hx hxInv
          have hxcp : x = cp := by
            rw [hcp] at hx
            injection hx with hh
            exact hh.symm
          subst hxcp
          constructor
          · exact forall_mem_set hxInv.1
              (cellOK_processCellUpdate (hxInv.1 cell (List.get?_mem hcell)) _ _)
          · intro he
            have hcur := hinv.2
            unfold CurOK at hcur
            rw [hcp] at hcur
            simp at hcur
            rw [he] at hcur
            exact absurd hcur (by decide)

theorem processRoll_stateInv {gs gs' : GameState} {value n now : Nat}
    {puId : String} {puIdx : Fin 3}
    (h : processRoll gs value n puId puIdx now = some gs') (hinv : StateInv gs) :
    StateInv gs' := by
  unfold processRoll at h
  split at h
  next => simp at h
  next cp hcp =>
    split at h
    next htrig =>
      injection h with h'
      subst h'
      constructor
      · intro p hp
        dsimp only at hp
        exact forall_mem_modifyIdx hinv.1 (fun x _ hx => playerInv_powerUps _ hx) p hp
      · unfold CurOK
        dsimp only
        exact curOK_modifyIdx _ _ (fun p => rfl) hinv.2
    next htrig =>
      split at h
      next hfm =>
        split at h
        next hne =>
          exact advanceToNextPlayer_stateInv h hinv.1
        next hne =>
          refine rollCellPhase_stateInv h ?_
          constructor
          · intro p hp
            dsimp only at hp
            exact forall_mem_modifyIdx hinv.1 (fun x _ hx => playerInv_firstMove _ hx) p hp
          · unfold CurOK
            dsimp only
            exact curOK_modifyIdx _ _ (fun p => rfl) hinv.2
      next hfm =>
        exact rollCellPhase_stateInv h hinv

theorem applyPUEffect_stateInv {gs : GameState} (pt : PUType) (target : Player)
    (ti : Nat) (tc : Option String) (hinv : StateInv gs) :
    StateInv (applyPUEffect gs pt target ti tc) := by
  unfold applyPUEffect
  cases pt with
  | freeze =>
    cases tc with
    | none => exact hinv
    | some cid =>
      dsimp only
      split
      next => exact hinv
      next =>
        split
        next => exact hinv
        next ci =>
          split
          next => exact hinv
          next cell hcell =>
            split
            next hok =>
              constructor
              · intro p hp
                dsimp only at hp
                refine forall_mem_modifyIdx hinv.1 ?_ p hp
                intro x _ hx
                exact playerInv_modifyIdx_cells
                  (f := fun c => { c with isFrozen := true })
                  (fun c hc => cellOK_same_fields hc rfl rfl rfl)
                  (fun c ha => ha) hx
              · unfold CurOK
                dsimp only
                exact curOK_modifyIdx _ _ (fun p => rfl) hinv.2
            next hok => exact hinv
  | shield =>
    dsimp only
    constructor
    · intro p hp
      dsimp only at hp
      refine forall_mem_modifyIdx hinv.1 ?_ p hp
      intro x _ hx
      exact playerInv_map_cells_if _ (fun c => { c with isShielded := true })
        (fun c hc => cellOK_same_fields hc rfl rfl rfl)
        (fun c ha => ha) hx
    · unfold CurOK
      dsimp only
      exact curOK_modifyIdx _ _ (fun p => rfl) hinv.2
  | turnSkipper =>
    dsimp only
    by_cases hel : (!target.eliminated) = true
    · rw [if_pos hel]; exact hinv
    · rw [if_neg hel]; exact hinv

theorem splicePU_stateInv {gs : GameState} (idx : Nat) (hinv : StateInv gs) :
    StateInv (splicePU gs idx) := by
  constructor
  · intro p hp
    unfold splicePU at hp
    dsimp only at hp
    exact forall_mem_modifyIdx hinv.1 (fun x _ hx => playerInv_powerUps _ hx) p hp
  · unfold CurOK splicePU
    dsimp only
    exact curOK_modifyIdx _ _ (fun p => rfl) hinv.2

theorem processPowerUp_stateInv {gs gs' : GameState} {powerUpId : String}
    {targetPlayer : Nat} {targetCell : Option String}
    (h : processPowerUp gs powerUpId targetPlayer targetCell = some gs')
    (hinv : StateInv gs) : StateInv gs' := by
  unfold processPowerUp at h
  split at h
  next => simp at h
  next cp hcp =>
    split at h
    next =>
      injection h with h'
      subst h'
      exact hinv
    next idx hidx =>
      split at h
      next =>
        injection h with h'
        subst h'
        exact hinv
      next pu hpu =>
        split at h
        next => simp at h
        next target htgt =>
          injection h with h'
          subst h'
          have h2 := applyPUEffect_stateInv pu.type target targetPlayer targetCell
            (splicePU_stateInv idx hinv)
          exact ⟨h2.1, h2.2⟩

theorem processShoot_stateInv {gs gs' : GameState} {targetPlayer : Nat}
    {targetCell : String}
    (h : processShoot gs targetPlayer targetCell = some gs')
    (hinv : StateInv gs) : StateInv gs' := by
  unfold processShoot at h
  split at h
  next cp target hcp htgt =>
    split at h
    next =>
      injection h with h'
      subst h'
      exact hinv
    next ci hci =>
      split at h
      next =>
        injection h with h'
        subst h'
        exact hinv
      next cell hcell =>
        split at h
        next =>
          injection h with h'
          subst h'
          exact hinv
        next hact =>
          split at h
          next =>
            injection h with h'
            subst h'
            exact hinv
          next hsh =>
            split at h
            next => simp at h
            next rc hrc =>
              split at h
              next => simp at h
              next hneg =>
                split at h
                next => simp at h
                next hlen =>
                  refine advanceToNextPlayer_stateInv h ?_
                  have h1 : PlayersInv (shooterDec gs rc.toNat) := by
                    intro p hp
                    unfold shooterDec at hp
                    dsimp only at hp
                    exact forall_mem_modifyIdx hinv.1
                      (fun x _ hx => playerInv_modifyIdx_cells
                        (f := decBullet)
                        (fun c hc => cellOK_decBullet hc)
                        (fun c ha => ha) hx) p hp
                  have h2 : PlayersInv
                      (destroyAt (shooterDec gs rc.toNat) targetPlayer ci) := by
                    intro p hp
                    unfold destroyAt at hp
                    dsimp only at hp
                    exact forall_mem_modifyIdx h1
                      (fun x _ hx => playerInv_modifyIdx_cells
                        (f := destroyCell)
                        (fun c _ => cellOK_destroyCell c)
                        (fun c _ => rfl) hx) p hp
                  intro p hp
                  unfold clearCanShoot elimCheck at hp
                  dsimp only at hp
                  split at hp
                  next t2 ht2 =>
                    split at hp
                    next hall =>
                      dsimp only at hp
                      refine forall_mem_modifyIdx_at h2 ?_ p hp
                      intro x hx hxInv
                      have hxt : x = t2 := by
                        unfold appendLog at ht2
                        dsimp only at ht2
                        rw [hx] at ht2
                        exact Option.some.inj ht2
                      subst hxt
                      constructor
                      · exact hxInv.1
                      · intro _ c hc
                        have := List.all_eq_true.mp hall c hc
                        simpa using this
                    next hall => exact h2 p hp
                  next ht2 => exact h2 p hp
  next => simp at h

theorem storePowerUp_stateInv {gs gs' : GameState} {pt : PUType}
    {puId : String} {now : Nat}
    (h : storePowerUp gs pt puId now = some gs') (hinv : StateInv gs) :
    StateInv gs' := by
  unfold storePowerUp at h
  split at h
  next => simp at h
  next =>
    refine advanceToNextPlayer_stateInv h ?_
    intro p hp
    dsimp only at hp
    exact forall_mem_modifyIdx hinv.1 (fun x _ hx => playerInv_powerUps _ hx) p hp

theorem step_stateInv {gs gs' : GameState} {a : Action}
    (h : step gs a = some gs') (hinv : StateInv gs) : StateInv gs' := by
  cases a with
  | roll value puId puIdx now => exact processRoll_stateInv h hinv
  | usePowerUp powerUpId targetPlayer targetCell => exact processPowerUp_stateInv h hinv
  | storePowerUp pt puId now => exact storePowerUp_stateInv h hinv
  | shoot targetPlayer targetCell => exact processShoot_stateInv h hinv

/-! ### The invariant holds in every reachable state -/

theorem mem_mapIdx_imp {α β : Type} {l : List α} {f : Nat → α → β} {b : β}
    (h : b ∈ l.mapIdx f) : ∃ i a, b = f i a := by
  rw [List.mapIdx_eq_enum_map] at h
  rcases List.mem_map.mp h with ⟨⟨i, a⟩, _, rfl⟩
  exact ⟨i, a, rfl⟩

theorem stateInv_init (seeds : List PlayerSeed) (cellId : Nat → Nat → String) :
    StateInv (initializeGameState seeds cellId) := by
  constructor
  · intro p hp
    obtain ⟨i, a, rfl⟩ := mem_mapIdx_imp hp
    constructor
    · intro c hc
      rcases List.mem_map.mp hc with ⟨j, _, rfl⟩
      intro hb
      simp [freshCell] at hb
    · intro he
      exact absurd he (by simp)
  · unfold CurOK
    cases hg : (initializeGameState seeds cellId).players.get?
        (initializeGameState seeds cellId).currentPlayer with
    | none => simp [hg]
    | some p =>
      obtain ⟨i, a, rfl⟩ := mem_mapIdx_imp (List.get?_mem hg)
      simp [hg]

theorem stateInv_of_steps {gs1 gs2 : GameState} (hs : Steps gs1 gs2)
    (h : StateInv gs1) : StateInv gs2 := by
  induction hs with
  | refl => exact h
  | tail a hs hstep ih => exact step_stateInv hstep ih

theorem reachable_stateInv {gs : GameState} (h : Reachable gs) : StateInv gs := by
  obtain ⟨seeds, cellId, hsteps⟩ := h
  exact stateInv_of_steps hsteps (stateInv_init seeds cellId)

/-! ### Lookup lemmas for the expiry tables -/

/-- JavaScript object keys are unique; the association lists that model the
expiry tables carry this as an explicit side condition where it matters. -/
def NodupKeys (m : List (String × Nat)) : Prop := (m.map Prod.fst).Nodup

instance (m : List (String × Nat)) : Decidable (NodupKeys m) := by
  unfold NodupKeys
  infer_instance

theorem assocLookup_filter_keep {m : List (String × Nat)} {k : String}
    {ex tc : Nat} (h : assocLookup m k = some ex) (hlt : tc < ex) :
    assocLookup (m.filter (fun e => tc < e.2)) k = some ex := by
  induction m with
  | nil => simp [assocLookup] at h
  | cons e rest ih =>
    by_cases hk : (e.1 == k) = true
    · have hex : e.2 = ex := by simpa [assocLookup, hk] using h
      subst hex
      simp [assocLookup, List.filter_cons, hk, hlt]
    · have h2 : assocLookup rest k = some ex := by
        simpa [assocLookup, hk] using h
      have hrec := ih h2
      by_cases hf : tc < e.2 <;>
        simpa [assocLookup, List.filter_cons, hf, hk] using hrec

theorem assocLookup_eq_none_of_not_mem {m : List (String × Nat)} {k : String}
    (h : k ∉ m.map Prod.fst) : assocLookup m k = none := by
  induction m with
  | nil => rfl
  | cons e rest ih =>
    simp only [List.map_cons, List.mem_cons] at h
    push_neg at h
    have hk : (e.1 == k) = false := by
      simpa using Ne.symm h.1
    simpa [assocLookup, hk] using ih h.2

theorem assocLookup_filter_drop {m : List (String × Nat)} {k : String}
    {ex tc : Nat} (hnd : NodupKeys m) (h : assocLookup m k = some ex)
    (hge : ex ≤ tc) : assocLookup (m.filter (fun e => tc < e.2)) k = none := by
  induction m with
  | nil => simp [assocLookup] at h
  | cons e rest ih =>
    unfold NodupKeys at hnd
    rw [List.map_cons, List.nodup_cons] at hnd
    by_cases hk : (e.1 == k) = true
    · have hex : e.2 = ex := by simpa [assocLookup, hk] using h
      subst hex
      have hkeq : e.1 = k := by simpa using hk
      have hdrop : ¬ tc < e.2 := by omega
      have hnone : assocLookup (rest.filter (fun e => tc < e.2)) k = none := by
        apply assocLookup_eq_none_of_not_mem
        intro hmem
        rcases List.mem_map.mp hmem with ⟨e2, he2, he2k⟩
        exact hnd.1 (hkeq ▸ he2k ▸
          List.mem_map_of_mem Prod.fst (List.mem_filter.mp he2).1)
      simpa [assocLookup, List.filter_cons, hdrop] using hnone
    · have h2 : assocLookup rest k = some ex := by
        simpa [assocLookup, hk] using h
      have hrec := ih hnd.2 h2
      by_cases hf : tc < e.2 <;>
        simpa [assocLookup, List.filter_cons, hf, hk] using hrec

theorem assocLookup_assocInsert (m : List (String × Nat)) (k : String) (v : Nat) :
    assocLookup (assocInsert m k v) k = some v := by
  unfold assocInsert
  by_cases hany : m.any (fun e => e.1 == k) = true
  · rw [if_pos hany]
    induction m with
    | nil => simp at hany
    | cons e rest ih =>
      rw [List.map_cons]
      by_cases hk : (e.1 == k) = true
      · have hkeq : e.1 = k := by simpa using hk
        simp [assocLookup, hkeq]
      · have hk2 : (e.1 == k) = false := by simpa using hk
        have hany2 : rest.any (fun e => e.1 == k) = true := by
          rw [List.any_cons] at hany
          simpa [hk2] using hany
        have hrec := ih hany2
        simpa [assocLookup, hk2] using hrec
  · rw [if_neg hany]
    have hnm : k ∉ m.map Prod.fst := by
      intro hmem
      rcases List.mem_map.mp hmem with ⟨e, he, rfl⟩
      exact hany (List.any_eq_true.mpr ⟨e, he, by simp⟩)
    have hff := assocLookup_eq_none_of_not_mem hnm
    unfold assocLookup at hff ⊢
    rw [List.find?_append]
    cases hfind : m.find? (fun e => e.1 == k) with
    | none => simp
    | some e => rw [hfind] at hff; simp at hff

/-- The sweep leaves exactly the shield entries with `turnCount < expiresAt`. -/
theorem sweep_shielded_eq (gs : GameState) :
    (processPowerUpEffects gs).powerUpState.shielded =
      gs.powerUpState.shielded.filter (fun e => gs.turnCount < e.2) := rfl

/-- The sweep leaves exactly the freeze entries with `turnCount < expiresAt`. -/
theorem sweep_frozen_eq (gs : GameState) :
    (processPowerUpEffects gs).powerUpState.frozen =
      gs.powerUpState.frozen.filter (fun e => gs.turnCount < e.2) := rfl

/-- The sweep leaves exactly the skip entries with `turnCount < expiresAt`. -/
theorem sweep_skipped_eq (gs : GameState) :
    (processPowerUpEffects gs).powerUpState.skippedTurns =
      gs.powerUpState.skippedTurns.filter (fun e => gs.turnCount < e.2) := rfl

/-! ### Concrete fixtures for the claim theorems -/

/-- An active stage-1 cell with no bullets. -/
def activeCell1 (cid : String) : Cell := ⟨cid, 1, true, 0, false, false⟩

/-- An armed max-stage cell with the given bullet count. -/
def armedCell (cid : String) (b : Int) : Cell := ⟨cid, 6, true, b, false, false⟩

/-- An active, shielded stage-3 cell. -/
def shieldedCell (cid : String) : Cell := ⟨cid, 3, true, 0, true, false⟩

/-- A non-eliminated player past the first move. -/
def mkPlayer (pid uname : String) (pus : List PowerUp) (cells : List Cell) :
    Player := ⟨pid, uname, false, false, pus, cells⟩

/-- Empty expiry tables. -/
def emptyPUState : PowerUpState := ⟨[], [], []⟩

/-- A game state with empty log and no last roll. -/
def mkState (cur tc : Nat) (ps : List Player) (canShoot : Bool)
    (rolled : Option Int) (pus : PowerUpState) : GameState :=
  ⟨cur, tc, ps, none, [], canShoot, rolled, pus⟩

/-- Scenario E fixture: player A holds a shield power-up at `turnCount = 5`,
player B owns one active cell. -/
def gsScenarioE : GameState :=
  mkState 0 5
    [mkPlayer "a" "A" [⟨"sh1", .shield, 0⟩] [activeCell1 "a0"],
     mkPlayer "b" "B" [] [activeCell1 "b0"]]
    false none emptyPUState

/-- Scenario E after the shield is cast on player B and the game advances
once (`turnCount = 6`). -/
def gsScenarioE6 : Option GameState :=
  (processPowerUp gsScenarioE "sh1" 1 none).bind advanceToNextPlayer

/-- Scenario E advanced once more (`turnCount = 7`). -/
def gsScenarioE7 : Option GameState := gsScenarioE6.bind advanceToNextPlayer

/-- Scenario E advanced a third time (`turnCount = 8`). -/
def gsScenarioE8 : Option GameState := gsScenarioE7.bind advanceToNextPlayer

/-- Player A holds a turn-skipper at `turnCount = 0`; player B is the target. -/
def gsSkipFixture : GameState :=
  mkState 0 0
    [mkPlayer "a" "A" [⟨"s1", .turnSkipper, 0⟩] [activeCell1 "a0"],
     mkPlayer "b" "B" [] [activeCell1 "b0"]]
    false none emptyPUState

/-- Two live players; player B carries a far-future skip entry. -/
def gsPassFixture : GameState :=
  mkState 0 0
    [mkPlayer "a" "A" [] [activeCell1 "a0"],
     mkPlayer "b" "B" [] [activeCell1 "b0"]]
    false none ⟨[], [], [("b", 3)]⟩

/-- Two live players with no pending effects. -/
def gsPlainFixture : GameState :=
  mkState 0 0
    [mkPlayer "a" "A" [] [activeCell1 "a0"],
     mkPlayer "b" "B" [] [activeCell1 "b0"]]
    false none emptyPUState

/-- A shooter with one bullet facing a shielded target cell, after a roll of
the armed cell (`canShoot` set, `rolledCell = 0`). -/
def gsShieldShot : GameState :=
  mkState 0 0
    [mkPlayer "a" "A" [] [armedCell "a0" 1, freshCell "a1"],
     mkPlayer "b" "B" [] [shieldedCell "b0", freshCell "b1"]]
    true (some 0) emptyPUState

/-- A shooter whose rolled cell has zero bullets facing an active,
unshielded target cell. -/
def gsZeroBullet : GameState :=
  mkState 0 0
    [mkPlayer "a" "A" [] [armedCell "a0" 0, freshCell "a1"],
     mkPlayer "b" "B" [] [⟨"b0", 3, true, 0, false, false⟩, activeCell1 "b1"]]
    true (some 0) emptyPUState

/-- A two-player game in which the current player still has the first move. -/
def gsFirstMove : GameState :=
  mkState 0 0
    [⟨"a", "A", false, true, [], [freshCell "c0", freshCell "c1"]⟩,
     ⟨"b", "B", false, true, [], [freshCell "d0", freshCell "d1"]⟩]
    false none emptyPUState

/-- A freshly initialized two-player game. -/
def gsInitTwo : GameState :=
  initializeGameState [⟨"a", "A"⟩, ⟨"b", "B"⟩] (fun _ _ => "c")

/-- Extract cell `ci` of player `pi`. -/
def cellOf (gs : GameState) (pi ci : Nat) : Option Cell :=
  (gs.players.get? pi).bind (fun p => p.cells.get? ci)

/-- Recognizer for `firstMove` log entries. -/
def isFirstMoveLog : LogEntry → Bool
  | .firstMove _ => true
  | _ => false

/-- Sweep-witness state: one shield entry with `expiresAt = 7` examined by a
sweep running at `turnCount = 7`. -/
def gsSweepWit : GameState :=
  mkState 0 7 [mkPlayer "b" "B" [] [shieldedCell "b0"]] false none ⟨[], [("b", 7)], []⟩

/-! ### C1 -/

/-- **C1 counterexample.**  A shield applied at `turnCount = 5` with
duration 2 records `expiresAt = 7`.  The sweep runs before the turn counter
increments and removes an entry only once `expiresAt <= turnCount`, so the
sweep performed while advancing from `turnCount = 6` to `7` (which compares
`7 <= 6`) leaves the shield in place: at `turnCount = 7` the entry is still
present and the target cell still shielded, contradicting the claim that
the effect is reversed by the sweep that leaves turn `T + d - 1 = 6`.  The
shield is in fact removed one advance later. -/
theorem shield_survives_sweep_leaving_turn_six :
    gsScenarioE6.map GameState.turnCount = some 6 ∧
    gsScenarioE6.map (fun gs => assocLookup gs.powerUpState.shielded "b") =
      some (some 7) ∧
    gsScenarioE7.map GameState.turnCount = some 7 ∧
    gsScenarioE7.map (fun gs => assocLookup gs.powerUpState.shielded "b") =
      some (some 7) ∧
    (gsScenarioE7.bind (fun gs => cellOf gs 1 0)).map Cell.isShielded =
      some true := by
  decide

/-- **C1 (amended).**  A time-scoped effect applied at turn `T` with
duration `d` records `expiresAt = T + d` (shield and freeze use
`POWER_UP_DURATION = 2`, turn-skip uses `1`); every sweep with
`turnCount < expiresAt` leaves the entry untouched and the sweep of the
first turn advance with `expiresAt <= turnCount` — the advance that leaves
turn `T + d` — removes it.  In particular a shield applied at
`turnCount = 5` with duration 2 is still active at `turnCount = 6` and `7`,
and is removed by the sweep that runs while advancing from `turnCount = 7`
to `8`. -/
theorem effect_expiry_sweep_timing :
    (∀ (gs : GameState) (pid : String) (ex : Nat),
      NodupKeys gs.powerUpState.shielded →
      assocLookup gs.powerUpState.shielded pid = some ex →
      (gs.turnCount < ex →
        assocLookup (processPowerUpEffects gs).powerUpState.shielded pid = some ex) ∧
      (ex ≤ gs.turnCount →
        assocLookup (processPowerUpEffects gs).powerUpState.shielded pid = none)) ∧
    (∀ (gs : GameState) (cid : String) (ex : Nat),
      NodupKeys gs.powerUpState.frozen →
      assocLookup gs.powerUpState.frozen cid = some ex →
      (gs.turnCount < ex →
        assocLookup (processPowerUpEffects gs).powerUpState.frozen cid = some ex) ∧
      (ex ≤ gs.turnCount →
        assocLookup (processPowerUpEffects gs).powerUpState.frozen cid = none)) ∧
    (∀ (gs : GameState) (pid : String) (ex : Nat),
      NodupKeys gs.powerUpState.skippedTurns →
      assocLookup gs.powerUpState.skippedTurns pid = some ex →
      (gs.turnCount < ex →
        assocLookup (processPowerUpEffects gs).powerUpState.skippedTurns pid = some ex) ∧
      (ex ≤ gs.turnCount →
        assocLookup (processPowerUpEffects gs).powerUpState.skippedTurns pid = none)) ∧
    (∀ (gs : GameState) (target : Player) (ti : Nat) (tcell : Option String),
      assocLookup (applyPUEffect gs PUType.shield target ti tcell).powerUpState.shielded
        target.id = some (gs.turnCount + POWER_UP_DURATION)) ∧
    (∀ (gs : GameState) (target : Player) (ti : Nat) (tcell : Option String),
      target.eliminated = false →
      assocLookup
        (applyPUEffect gs PUType.turnSkipper target ti tcell).powerUpState.skippedTurns
        target.id = some (gs.turnCount + 1)) ∧
    (gsScenarioE8.map GameState.turnCount = some 8 ∧
      gsScenarioE8.map (fun gs => assocLookup gs.powerUpState.shielded "b") =
        some none ∧
      (gsScenarioE8.bind (fun gs => cellOf gs 1 0)).map Cell.isShielded =
        some false) := by
  refine ⟨?_, ?_, ?_, ?_, ?_, by decide⟩
  · intro gs pid ex hnd h
    rw [sweep_shielded_eq]
    exact ⟨fun hlt => assocLookup_filter_keep h hlt,
      fun hge => assocLookup_filter_drop hnd h hge⟩
  · intro gs cid ex hnd h
    rw [sweep_frozen_eq]
    exact ⟨fun hlt => assocLookup_filter_keep h hlt,
      fun hge => assocLookup_filter_drop hnd h hge⟩
  · intro gs pid ex hnd h
    rw [sweep_skipped_eq]
    exact ⟨fun hlt => assocLookup_filter_keep h hlt,
      fun hge => assocLookup_filter_drop hnd h hge⟩
  · intro gs target ti tcell
    unfold applyPUEffect
    exact assocLookup_assocInsert _ _ _
  · intro gs target ti tcell hel
    unfold applyPUEffect
    rw [if_pos (by simp [hel])]
    exact assocLookup_assocInsert _ _ _

/-- Witness for the amended C1: the sweep at `turnCount = 7` removes a
shield entry with `expiresAt = 7`, and keeps nothing of it. -/
theorem effect_expiry_sweep_timing_witness :
    assocLookup (processPowerUpEffects gsSweepWit).powerUpState.shielded "b" =
      none :=
  (effect_expiry_sweep_timing.1 gsSweepWit "b" 7 (by decide) (by decide)).2
    (by decide)

/-! ### C2 -/

/-- **C2 (code bug).**  Using a `turnSkipper` on non-eliminated player B at
`turnCount = 0` records `expiresAt = 1`, but `advanceToNextPlayer` first
increments `turnCount` (to 1) and only then compares
`skipInfo.expiresAt > turnCount`; `1 > 1` fails, so the sequencer stops on
player B: the immediately following turn of the target is NOT skipped.  The
skip check can never succeed for an entry created by `processPowerUp`
(`expiresAt = castTurn + 1 <= turnCount` at every later check), so the
mechanism that its own comments describe as `Skip only one turn` never
skips any turn. -/
theorem turnSkipper_target_not_skipped :
    (processPowerUp gsSkipFixture "s1" 1 none).map
        (fun gs => assocLookup gs.powerUpState.skippedTurns "b") =
      some (some 1) ∧
    ((processPowerUp gsSkipFixture "s1" 1 none).bind advanceToNextPlayer).map
        GameState.currentPlayer = some 1 ∧
    (gsSkipFixture.players.get? 1).map Player.eliminated = some false := by
  decide

/-! ### C3 -/

/-- The plain two-player fixture after one turn advance. -/
def gsPlainAfter : GameState :=
  mkState 1 1
    [mkPlayer "a" "A" [] [activeCell1 "a0"],
     mkPlayer "b" "B" [] [activeCell1 "b0"]]
    false none emptyPUState

/-- **C3 counterexample.**  On a state whose skip table holds a far-future
entry for player B (`expiresAt = 3`, `turnCount = 0`), `advanceToNextPlayer`
does pass over player B (the call returns with `currentPlayer = 0` after two
internal advances) but does NOT delete the consumed skip entry: the code
recurses without deleting, relying on the later sweep, so the entry for the
passed-over player is still in `powerUpState.skippedTurns`.  This refutes
the conjunct that the skip entry of any passed-over player has been deleted
when the call returns. -/
theorem passed_over_skip_entry_not_deleted :
    (advanceToNextPlayer gsPassFixture).map GameState.currentPlayer = some 0 ∧
    (advanceToNextPlayer gsPassFixture).map GameState.turnCount = some 2 ∧
    (advanceToNextPlayer gsPassFixture).map
        (fun gs => assocLookup gs.powerUpState.skippedTurns "b") =
      some (some 3) ∧
    (∃ p ∈ gsPassFixture.players, p.eliminated = false) := by
  decide

/-- **C3 (amended).**  For every game state with at least one non-eliminated
player, whenever `advanceToNextPlayer` returns, `currentPlayer` refers to a
non-eliminated player with no active (non-expired) skip entry; consumed
skip entries are however not deleted at consumption time — they are removed
later by the sweep once expired. -/
theorem advance_lands_on_live_unskipped (gs gs2 : GameState)
    (hlive : ∃ p ∈ gs.players, p.eliminated = false)
    (hadv : advanceToNextPlayer gs = some gs2) :
    ∃ p, gs2.players.get? gs2.currentPlayer = some p ∧ p.eliminated = false ∧
      NoActiveSkip gs2 p.id :=
  advanceToNextPlayer_post hadv

/-- Witness for the amended C3 on the plain two-player fixture. -/
theorem advance_lands_on_live_unskipped_witness :
    ∃ p, gsPlainAfter.players.get? gsPlainAfter.currentPlayer = some p ∧
      p.eliminated = false ∧ NoActiveSkip gsPlainAfter p.id :=
  advance_lands_on_live_unskipped gsPlainFixture gsPlainAfter
    ⟨mkPlayer "a" "A" [] [activeCell1 "a0"], by decide, by decide⟩
    (by decide)

/-! ### C4 -/

/-- **C4 counterexample.**  A shooter with one bullet shooting a shielded
target cell: the engine appends the `blocked` entry but returns immediately
— the bullet count stays 1 (no bullet is consumed), `canShoot` stays set,
and neither `currentPlayer` nor `turnCount` changes, contradicting the
claimed bullet consumption, `canShoot` clearing and turn advance.  (The
target cell does remain active and shielded, as claimed.) -/
theorem shielded_shot_spends_no_bullet :
    processShoot gsShieldShot 1 "b0" =
      some (appendLog gsShieldShot (LogEntry.blocked "A" "B" "Cell is shielded")) ∧
    (cellOf gsShieldShot 0 0).map Cell.bullets = some 1 ∧
    ((processShoot gsShieldShot 1 "b0").bind (fun gs => cellOf gs 0 0)).map
        Cell.bullets = some 1 ∧
    (processShoot gsShieldShot 1 "b0").map GameState.canShoot = some true ∧
    (processShoot gsShieldShot 1 "b0").map GameState.currentPlayer = some 0 ∧
    (processShoot gsShieldShot 1 "b0").map GameState.turnCount = some 0 ∧
    ((processShoot gsShieldShot 1 "b0").bind (fun gs => cellOf gs 1 0)).map
        (fun c => (c.isActive, c.isShielded)) = some (true, true) := by
  decide

/-- **C4 (amended).**  For every shoot action whose target cell is found and
shielded, the engine appends a `blocked` entry (message `Cell is shielded`)
and returns with no other state change: no bullet is consumed regardless of
the shooter cell, the target cell stays active and shielded, `canShoot` is
not cleared, and the turn does not advance. -/
theorem shielded_shot_blocked_early_return (gs : GameState) (cp target : Player)
    (cell : Cell) (tp ci : Nat) (tcid : String)
    (hcp : gs.players.get? gs.currentPlayer = some cp)
    (htp : gs.players.get? tp = some target)
    (hci : target.cells.findIdx? (fun c => c.id == tcid) = some ci)
    (hcell : target.cells.get? ci = some cell)
    (hact : cell.isActive = true) (hsh : cell.isShielded = true) :
    processShoot gs tp tcid =
      some (appendLog gs
        (LogEntry.blocked cp.username target.username "Cell is shielded")) := by
  unfold processShoot
  simp only [hcp, htp, hci, hcell, hact, hsh]
  simp [appendLog]

/-- Witness for the amended C4 on the shielded-target fixture. -/
theorem shielded_shot_blocked_early_return_witness :
    processShoot gsShieldShot 1 "b0" =
      some (appendLog gsShieldShot
        (LogEntry.blocked "A" "B" "Cell is shielded")) :=
  shielded_shot_blocked_early_return gsShieldShot
    (mkPlayer "a" "A" [] [armedCell "a0" 1, freshCell "a1"])
    (mkPlayer "b" "B" [] [shieldedCell "b0", freshCell "b1"])
    (shieldedCell "b0") 1 0 "b0"
    (by decide) (by decide) (by decide) (by decide) (by decide) (by decide)

/-! ### C5 -/

/-- **C5 (code bug).**  The second-revision `processShoot` has no
`bullets > 0` guard: a shooter whose rolled cell holds zero bullets still
destroys the active, unshielded target cell, appends a `shoot` entry, and
drives the shooter bullet count to `-1` — outside the documented `0..5`
range — instead of being the silent no-op the claim (and the earlier
revision, which guarded with `if (sourceCell.bullets > 0)`) requires.  The
turn does advance, as claimed. -/
theorem zero_bullet_shot_destroys_target :
    (cellOf gsZeroBullet 0 0).map Cell.bullets = some 0 ∧
    ((processShoot gsZeroBullet 1 "b0").bind (fun gs => cellOf gs 0 0)).map
        Cell.bullets = some (-1) ∧
    ((processShoot gsZeroBullet 1 "b0").bind (fun gs => cellOf gs 1 0)).map
        Cell.isActive = some false ∧
    (processShoot gsZeroBullet 1 "b0").map (fun gs => gs.gameLog) =
      some [LogEntry.shoot "A" "B" 1] ∧
    (processShoot gsZeroBullet 1 "b0").map GameState.currentPlayer = some 1 := by
  decide

/-! ### C6 -/

/-- **C6.**  Rolling the player-count-scaled trigger value (3 for at most 2
players, 4 for 3, 5 for 4, 6 for 5 or more) grants a power-up drawn by the
random oracle (which ranges bijectively over freeze, shield, turnSkipper)
to the current player, appends a `powerUp` log entry, and completes with
`currentPlayer`, `turnCount` and `canShoot` untouched — the full result
state differs from the input only in `lastRoll`, the log, and the rolling
player inventory. -/
theorem trigger_roll_grants_random_powerUp :
    (∀ (gs : GameState) (cp : Player) (value n puNow : Nat) (puId : String)
        (puIdx : Fin 3),
      gs.players.get? gs.currentPlayer = some cp →
      value = getPowerUpTriggerNumber n →
      processRoll gs value n puId puIdx puNow =
        some { gs with
          lastRoll := some value
          gameLog := gs.gameLog ++ [.powerUp cp.username (puTypeOf puIdx)]
          players := modifyIdx gs.players gs.currentPlayer
            (fun p => { p with
              powerUps := p.powerUps ++ [⟨puId, puTypeOf puIdx, puNow⟩] }) }) ∧
    (∀ t : PUType, ∃ i : Fin 3, puTypeOf i = t) ∧
    getPowerUpTriggerNumber 2 = 3 ∧ getPowerUpTriggerNumber 3 = 4 ∧
    getPowerUpTriggerNumber 4 = 5 ∧
    (∀ m, 5 ≤ m → getPowerUpTriggerNumber m = 6) := by
  refine ⟨?_, ?_, rfl, rfl, rfl, ?_⟩
  · intro gs cp value n puNow puId puIdx hcp htrig
    subst htrig
    unfold processRoll
    rw [hcp]
    simp
  · intro t
    cases t with
    | freeze => exact ⟨0, rfl⟩
    | shield => exact ⟨1, rfl⟩
    | turnSkipper => exact ⟨2, rfl⟩
  · intro m hm
    unfold getPowerUpTriggerNumber
    split <;> [omega; split <;> [omega; split <;> omega]]

/-- Witness for C6: rolling 3 in the two-player fixture banks a freeze
power-up without advancing the turn. -/
theorem trigger_roll_grants_random_powerUp_witness :
    processRoll gsPlainFixture 3 2 "x" 0 7 =
      some { gsPlainFixture with
        lastRoll := some 3
        gameLog := gsPlainFixture.gameLog ++ [.powerUp "A" (puTypeOf 0)]
        players := modifyIdx gsPlainFixture.players gsPlainFixture.currentPlayer
          (fun p => { p with powerUps := p.powerUps ++ [⟨"x", puTypeOf 0, 7⟩] }) } :=
  trigger_roll_grants_random_powerUp.1 gsPlainFixture
    (mkPlayer "a" "A" [] [activeCell1 "a0"]) 3 2 7 "x" 0 (by decide) (by decide)

/-! ### C7 -/

/-- **C7 counterexample.**  In a two-player game the trigger value is 3; a
first-move player who rolls 3 (a value different from 1) receives a
power-up instead of the missed-first-move treatment: no `firstMove` log
entry is appended and the turn does not advance, contradicting the claim
that every roll with value different from 1 does both.  (`firstMove` itself
does stay true, as claimed.) -/
theorem firstMove_trigger_roll_no_advance :
    (gsFirstMove.players.get? 0).map Player.firstMove = some true ∧
    (processRoll gsFirstMove 3 2 "x" 0 0).map GameState.currentPlayer = some 0 ∧
    (processRoll gsFirstMove 3 2 "x" 0 0).map GameState.turnCount = some 0 ∧
    (processRoll gsFirstMove 3 2 "x" 0 0).map
        (fun gs => gs.gameLog.any isFirstMoveLog) = some false ∧
    ((processRoll gsFirstMove 3 2 "x" 0 0).bind
        (fun gs => gs.players.get? 0)).map Player.firstMove = some true := by
  decide

/-- **C7 (amended).**  While `firstMove` is true, every roll whose value is
neither 1 nor the power-up trigger value appends a `firstMove` log entry,
clears `canShoot`, leaves `firstMove` true and hands the state to the turn
sequencer; a roll of 1 (which is never the trigger value, since the trigger
is at least 3) clears `firstMove` and proceeds to the cell-handling phase. -/
theorem firstMove_roll_amended :
    (∀ (gs : GameState) (cp : Player) (value n puNow : Nat) (puId : String)
        (puIdx : Fin 3),
      gs.players.get? gs.currentPlayer = some cp →
      cp.firstMove = true → value ≠ 1 → value ≠ getPowerUpTriggerNumber n →
      processRoll gs value n puId puIdx puNow =
        advanceToNextPlayer { gs with
          lastRoll := some value
          rolledCell := some ((value : Int) - 1)
          gameLog := gs.gameLog ++ [.firstMove cp.username]
          canShoot := false }) ∧
    (∀ (gs : GameState) (cp : Player) (n puNow : Nat) (puId : String)
        (puIdx : Fin 3),
      gs.players.get? gs.currentPlayer = some cp →
      cp.firstMove = true →
      processRoll gs 1 n puId puIdx puNow =
        rollCellPhase { gs with
          lastRoll := some 1
          rolledCell := some 0
          players := modifyIdx gs.players gs.currentPlayer
            (fun p => { p with firstMove := false }) } 1) ∧
    (∀ n, 3 ≤ getPowerUpTriggerNumber n) := by
  refine ⟨?_, ?_, ?_⟩
  · intro gs cp value n puNow puId puIdx hcp hfm hne hnt
    unfold processRoll
    rw [hcp]
    simp [hnt, hfm, hne]
  · intro gs cp n puNow puId puIdx hcp hfm
    have hnt : (1 : Nat) ≠ getPowerUpTriggerNumber n := by
      unfold getPowerUpTriggerNumber
      split <;> [omega; split <;> [omega; split <;> omega]]
    unfold processRoll
    rw [hcp]
    simp [hnt, hfm]
  · intro n
    unfold getPowerUpTriggerNumber
    split <;> [omega; split <;> [omega; split <;> omega]]

/-- Witness for the amended C7: a first-move roll of 4 in the two-player
fixture logs the miss and passes the state to the sequencer. -/
theorem firstMove_roll_amended_witness :
    processRoll gsFirstMove 4 2 "x" 0 0 =
      advanceToNextPlayer { gsFirstMove with
        lastRoll := some 4
        rolledCell := some 3
        gameLog := gsFirstMove.gameLog ++ [.firstMove "A"]
        canShoot := false } :=
  firstMove_roll_amended.1 gsFirstMove
    ⟨"a", "A", false, true, [], [freshCell "c0", freshCell "c1"]⟩ 4 2 0 "x" 0
    (by decide) (by decide) (by decide) (by decide)

/-! ### C8 -/

/-- **C8.**  In every game state reachable from `initializeGameState` by
accepted actions, every cell of every player with a positive bullet count
is active and at stage 6. -/
theorem reachable_bullets_imply_armed (gs : GameState) (h : Reachable gs) :
    ∀ p ∈ gs.players, ∀ c ∈ p.cells, 0 < c.bullets →
      c.isActive = true ∧ c.stage = 6 :=
  fun p hp c hc hb => (reachable_stateInv h).1 p hp |>.1 c hc hb

/-- Witness for C8 at a freshly initialized two-player game. -/
theorem reachable_bullets_imply_armed_witness :
    Reachable gsInitTwo ∧
    (∀ p ∈ gsInitTwo.players, ∀ c ∈ p.cells, 0 < c.bullets →
      c.isActive = true ∧ c.stage = 6) :=
  ⟨⟨[⟨"a", "A"⟩, ⟨"b", "B"⟩], (fun _ _ => "c"), Steps.refl _⟩,
    reachable_bullets_imply_armed gsInitTwo
      ⟨[⟨"a", "A"⟩, ⟨"b", "B"⟩], (fun _ _ => "c"), Steps.refl _⟩⟩

/-! ### C9 -/

/-- A one-player state whose only cell is inactive, feeding the
elimination re-check. -/
def gsElimW : GameState :=
  mkState 0 0 [mkPlayer "a" "A" [] [freshCell "a0"]] false none emptyPUState

/-- **C9 counterexample.**  In the initial state — reachable by the empty
action sequence — every cell of player 0 is inactive, yet `eliminated` is
false: the claimed equivalence `eliminated = true ⇔ all cells inactive`
fails in the right-to-left direction for players who have not yet activated
any cell. -/
theorem initial_player_all_inactive_not_eliminated :
    Reachable gsInitTwo ∧
    (gsInitTwo.players.get? 0).map Player.eliminated = some false ∧
    (gsInitTwo.players.get? 0).map
        (fun p => p.cells.all (fun c => !c.isActive)) = some true :=
  ⟨⟨[⟨"a", "A"⟩, ⟨"b", "B"⟩], (fun _ _ => "c"), Steps.refl _⟩, by decide, by decide⟩

/-- **C9 (amended).**  In every reachable state, `eliminated = true` implies
every cell of that player is inactive (the converse fails in states where a
player has no active cells but was never shot, e.g. at game start); the
flag is re-evaluated by the elimination check after every successful shot,
which sets it — appending an `eliminate` log entry — exactly when every
target cell is inactive, and otherwise leaves the state unchanged. -/
theorem eliminated_implies_all_cells_inactive :
    (∀ gs : GameState, Reachable gs → ∀ p ∈ gs.players, p.eliminated = true →
      ∀ c ∈ p.cells, c.isActive = false) ∧
    (∀ (gs : GameState) (sn tn : String) (tp : Nat) (t2 : Player),
      gs.players.get? tp = some t2 →
      (t2.cells.all (fun c => !c.isActive) = true →
        elimCheck gs sn tn tp =
          { gs with
            players := modifyIdx gs.players tp
              (fun p => { p with eliminated := true })
            gameLog := gs.gameLog ++ [.eliminate sn tn] }) ∧
      (t2.cells.all (fun c => !c.isActive) = false →
        elimCheck gs sn tn tp = gs)) := by
  constructor
  · intro gs h p hp he
    exact ((reachable_stateInv h).1 p hp).2 he
  · intro gs sn tn tp t2 ht2
    constructor
    · intro hall
      unfold elimCheck
      rw [ht2]
      simp [hall]
    · intro hall
      unfold elimCheck
      rw [ht2]
      simp [hall]

/-- Witness for the amended C9: the invariant at the initial two-player
state, and the elimination check firing on an all-inactive player. -/
theorem eliminated_implies_all_cells_inactive_witness :
    (∀ p ∈ gsInitTwo.players, p.eliminated = true →
      ∀ c ∈ p.cells, c.isActive = false) ∧
    elimCheck gsElimW "A" "B" 0 =
      { gsElimW with
        players := modifyIdx gsElimW.players 0
          (fun p => { p with eliminated := true })
        gameLog := gsElimW.gameLog ++ [.eliminate "A" "B"] } :=
  ⟨eliminated_implies_all_cells_inactive.1 gsInitTwo
      ⟨[⟨"a", "A"⟩, ⟨"b", "B"⟩], (fun _ _ => "c"), Steps.refl _⟩,
    (eliminated_implies_all_cells_inactive.2 gsElimW "A" "B" 0
      (mkPlayer "a" "A" [] [freshCell "a0"]) (by decide)).1 (by decide)⟩

/-! ### C10 -/

/-- A shooter facing a target whose only cell is inactive. -/
def gsInactiveShot : GameState :=
  mkState 0 0
    [mkPlayer "a" "A" [] [armedCell "a0" 1],
     mkPlayer "b" "B" [] [freshCell "b0"]]
    true (some 0) emptyPUState

/-- **C10.**  Whenever the target cell is not found by id, or is found but
inactive, `processShoot` appends a `blocked` entry with message
`Cell is not active` and returns with no other state change: the result is
the input state with exactly that one log entry appended, so no bullet is
consumed, the target is untouched, `canShoot` keeps its value, and the turn
does not advance. -/
theorem inactive_target_shot_blocked (gs : GameState) (cp target : Player)
    (tp : Nat) (tcid : String)
    (hcp : gs.players.get? gs.currentPlayer = some cp)
    (htp : gs.players.get? tp = some target)
    (hmiss : target.cells.findIdx? (fun c => c.id == tcid) = none ∨
      ∃ ci cell, target.cells.findIdx? (fun c => c.id == tcid) = some ci ∧
        target.cells.get? ci = some cell ∧ cell.isActive = false) :
    processShoot gs tp tcid =
      some (appendLog gs
        (LogEntry.blocked cp.username target.username "Cell is not active")) := by
  unfold processShoot
  rcases hmiss with hnone | ⟨ci, cell, hci, hcell, hact⟩
  · simp only [hcp, htp, hnone]
    simp [appendLog]
  · simp only [hcp, htp, hci, hcell, hact]
    simp [appendLog]

/-- Witness for C10: shooting the inactive cell of player B logs the
blocked entry and changes nothing else. -/
theorem inactive_target_shot_blocked_witness :
    processShoot gsInactiveShot 1 "b0" =
      some (appendLog gsInactiveShot
        (LogEntry.blocked "A" "B" "Cell is not active")) :=
  inactive_target_shot_blocked gsInactiveShot
    (mkPlayer "a" "A" [] [armedCell "a0" 1])
    (mkPlayer "b" "B" [] [freshCell "b0"]) 1 "b0"
    (by decide) (by decide)
    (Or.inr ⟨0, freshCell "b0", by decide, by decide, by decide⟩)

end Idksan
